import Mathlib

/-!
Verification model of the DiscordGPT-Internet ai-engine core
(ingestion-and-retrieval pipeline).

Python strings are modelled as lists of characters (`Str`), Python dicts
holding JSON-decoded data as association lists over a JSON value type `J`
(Python `None` is the JSON `null`). All definitions are executable and are
translated from the source files
  services/ai-engine/src/services/rag.py
  services/ai-engine/src/main.py
  services/ai-engine/initial_sync.py
-/

set_option maxRecDepth 4000

/-- Python strings are modelled as lists of characters. -/
abbrev Str := List Char

/-- Whitespace stripped by Python `str.strip()`. -/
def pyWs (c : Char) : Bool :=
  c = ' ' || c = '\t' || c = '\n' || c = '\r' || c = '\x0b' || c = '\x0c'

/-- Python `str.strip()`. -/
def pstrip (s : Str) : Str :=
  ((s.dropWhile pyWs).reverse.dropWhile pyWs).reverse

/-- Python `str.lower()` (ASCII-adequate for the data involved). -/
def lowerS (s : Str) : Str := s.map Char.toLower

/-- Python `needle in haystack` substring test. -/
def containsSub (hay needle : Str) : Bool :=
  match hay with
  | [] => needle.isEmpty
  | _ :: t => needle.isPrefixOf hay || containsSub t needle

/-- If `lit` is a literal prefix of `s`, return the rest of `s`. -/
def dropLit (lit s : Str) : Option Str :=
  if lit.isPrefixOf s then some (s.drop lit.length) else none

/-- Split `s` at the first occurrence of `sep` (which is nonempty in all
uses), returning the part before and the part after the separator.  This
models a lazy regex group followed by the literal `sep`. -/
def splitFirst (sep : Str) : Str → Option (Str × Str)
  | [] => none
  | c :: rest =>
    if sep.isPrefixOf (c :: rest) then some ([], (c :: rest).drop sep.length)
    else (splitFirst sep rest).map (fun p => (c :: p.1, p.2))

/-- JSON values as decoded by Python `json.loads`; `null` doubles as the
Python value `None`.  Numbers keep their source token. -/
inductive J where
  | str : Str → J
  | num : Str → J
  | bool : Bool → J
  | null : J
  | obj : List (Str × J) → J
  | arr : List J → J

mutual

/-- Structural equality on decoded values (models Python `==` between
JSON-decoded values; the cross-type numeric coercions of Python `==`,
such as `1 == 1.0`, are not needed by any modelled code path). -/
def jBeq : J → J → Bool
  | .str a, .str b => a == b
  | .num a, .num b => a == b
  | .bool a, .bool b => a == b
  | .null, .null => true
  | .obj a, .obj b => jBeqFields a b
  | .arr a, .arr b => jBeqList a b
  | _, _ => false

/-- Equality of member lists. -/
def jBeqFields : List (Str × J) → List (Str × J) → Bool
  | [], [] => true
  | (k1, v1) :: t1, (k2, v2) :: t2 => k1 == k2 && jBeq v1 v2 && jBeqFields t1 t2
  | _, _ => false

/-- Equality of element lists. -/
def jBeqList : List J → List J → Bool
  | [], [] => true
  | a :: t1, b :: t2 => jBeq a b && jBeqList t1 t2
  | _, _ => false

end

/-- A Python dict holding JSON-ish values (metadata, parsed records). -/
abbrev Dict := List (Str × J)

/-- Python `dict[key]` / `dict.get(key)`: with duplicate keys the later
binding wins, as in `json.loads`. -/
def jGet (d : Dict) (k : Str) : Option J :=
  (d.reverse.find? (fun kv => decide (kv.1 = k))).map (fun kv => kv.2)

/-- Python `dict.get(key, default)`. -/
def jGetD (d : Dict) (k : Str) (dflt : J) : J :=
  match jGet d k with
  | some v => v
  | none => dflt

/-- Python `str(v)` / f-string rendering of a decoded JSON value.  Strings
render as themselves, `None` as `"None"`, booleans capitalised; numbers
render as their source token, containers by a placeholder tag (no claim
inspects a rendered container). -/
def pyStr : J → Str
  | .str s => s
  | .num raw => raw
  | .bool true => "True".toList
  | .bool false => "False".toList
  | .null => "None".toList
  | .obj _ => "<dict>".toList
  | .arr _ => "<list>".toList

/-- Is a number token the number zero (mantissa holds no nonzero digit)? -/
def numIsZero (raw : Str) : Bool :=
  (raw.takeWhile (fun c => c ≠ 'e' && c ≠ 'E')).all
    (fun c => c = '0' || c = '-' || c = '+' || c = '.')

/-- Python truthiness of a decoded value (`if v:`). -/
def pyTruthy : J → Bool
  | .str s => !s.isEmpty
  | .num raw => !numIsZero raw
  | .bool b => b
  | .null => false
  | .obj kvs => !kvs.isEmpty
  | .arr xs => !xs.isEmpty

/-- An `Optional[str]` request field as the Python value it carries. -/
def optToJ : Option Str → J
  | none => J.null
  | some s => J.str s

/-! ## A model of `json.loads`

A recursive-descent JSON parser over `Str`, with fuel for termination.
It accepts exactly well-formed JSON texts (object/array/string/number/
`true`/`false`/`null`, standard string escapes); failure models the
`json.JSONDecodeError` raised by `json.loads`. -/

/-- JSON insignificant whitespace. -/
def jWs (c : Char) : Bool := c = ' ' || c = '\t' || c = '\n' || c = '\r'

def skipWs (s : Str) : Str := s.dropWhile jWs

/-- Hex digit value: the position of the (case-folded) digit in the hex
alphabet. -/
def hexVal (c : Char) : Option Nat :=
  "0123456789abcdef".toList.findIdx? (fun d => d == c.toLower)

/-- Parse the body of a JSON string after the opening quote; returns the
decoded characters and the input after the closing quote. -/
def jparseStrBody : Nat → Str → Option (Str × Str)
  | 0, _ => none
  | _, [] => none
  | fuel + 1, c :: rest =>
    if c = '"' then some ([], rest)
    else if c = '\\' then
      match rest with
      | [] => none
      | e :: rest2 =>
        let dec : Option (Char × Str) :=
          if e = '"' then some ('"', rest2)
          else if e = '\\' then some ('\\', rest2)
          else if e = '/' then some ('/', rest2)
          else if e = 'b' then some ('\x08', rest2)
          else if e = 'f' then some ('\x0c', rest2)
          else if e = 'n' then some ('\n', rest2)
          else if e = 'r' then some ('\r', rest2)
          else if e = 't' then some ('\t', rest2)
          else if e = 'u' then
            match rest2 with
            | h1 :: h2 :: h3 :: h4 :: rest3 =>
              match hexVal h1, hexVal h2, hexVal h3, hexVal h4 with
              | some a, some b, some c', some d =>
                let n := ((a * 16 + b) * 16 + c') * 16 + d
                some (Char.ofNat n, rest3)
              | _, _, _, _ => none
            | _ => none
          else none
        match dec with
        | some (ch, rest') =>
          (jparseStrBody fuel rest').map (fun p => (ch :: p.1, p.2))
        | none => none
    else if c.toNat < 32 then none
    else (jparseStrBody fuel rest).map (fun p => (c :: p.1, p.2))

/-- Parse a JSON number token (returned raw). -/
def jparseNum (s : Str) : Option (Str × Str) :=
  let (sign, s1) := match s with
    | '-' :: t => (['-'], t)
    | _ => (([] : Str), s)
  let intPart : Option (Str × Str) :=
    match s1 with
    | '0' :: t => some (['0'], t)
    | c :: _ =>
      if c.isDigit && c ≠ '0' then
        some (s1.takeWhile Char.isDigit, s1.dropWhile Char.isDigit)
      else none
    | [] => none
  match intPart with
  | none => none
  | some (ip, s2) =>
    let (fp, s3) : Str × Str :=
      match s2 with
      | '.' :: t =>
        if t.takeWhile Char.isDigit = [] then (['!'], t)  -- marker: invalid
        else ('.' :: t.takeWhile Char.isDigit, t.dropWhile Char.isDigit)
      | _ => ([], s2)
    if fp = ['!'] then none
    else
      let (ep, s4) : Str × Str :=
        match s3 with
        | 'e' :: t | 'E' :: t =>
          let (es, t2) := match t with
            | '+' :: u => (['+'], u)
            | '-' :: u => (['-'], u)
            | _ => (([] : Str), t)
          if t2.takeWhile Char.isDigit = [] then (['!'], t2)
          else ('e' :: es ++ t2.takeWhile Char.isDigit, t2.dropWhile Char.isDigit)
        | _ => ([], s3)
      if ep = ['!'] then none
      else some (sign ++ ip ++ fp ++ ep, s4)

mutual

/-- Parse one JSON value (after skipping leading whitespace). -/
def jparseVal : Nat → Str → Option (J × Str)
  | 0, _ => none
  | fuel + 1, s =>
    match skipWs s with
    | [] => none
    | '"' :: rest => (jparseStrBody (fuel + 1) rest).map (fun p => (J.str p.1, p.2))
    | '{' :: rest => jparseFields fuel (skipWs rest) true
    | '[' :: rest => jparseElems fuel (skipWs rest) true
    | 't' :: 'r' :: 'u' :: 'e' :: rest => some (J.bool true, rest)
    | 'f' :: 'a' :: 'l' :: 's' :: 'e' :: rest => some (J.bool false, rest)
    | 'n' :: 'u' :: 'l' :: 'l' :: rest => some (J.null, rest)
    | s' => (jparseNum s').map (fun p => (J.num p.1, p.2))

/-- Parse object members up to the closing brace; `first` marks whether we
are before the first member (so a closing brace is allowed). -/
def jparseFields : Nat → Str → Bool → Option (J × Str)
  | 0, _, _ => none
  | fuel + 1, s, first =>
    match s with
    | '}' :: rest => if first then some (J.obj [], rest) else none
    | _ => jparseFieldList (fuel + 1) s []

/-- Parse a nonempty member list, accumulating decoded pairs. -/
def jparseFieldList : Nat → Str → List (Str × J) → Option (J × Str)
  | 0, _, _ => none
  | fuel + 1, s, acc =>
    match skipWs s with
    | '"' :: rest =>
      match jparseStrBody (fuel + 1) rest with
      | none => none
      | some (key, rest2) =>
        match skipWs rest2 with
        | ':' :: rest3 =>
          match jparseVal fuel rest3 with
          | none => none
          | some (v, rest4) =>
            match skipWs rest4 with
            | ',' :: rest5 => jparseFieldList fuel rest5 (acc ++ [(key, v)])
            | '}' :: rest5 => some (J.obj (acc ++ [(key, v)]), rest5)
            | _ => none
        | _ => none
    | _ => none

/-- Parse array items after the opening bracket. -/
def jparseElems : Nat → Str → Bool → Option (J × Str)
  | 0, _, _ => none
  | fuel + 1, s, first =>
    match s with
    | ']' :: rest => if first then some (J.arr [], rest) else none
    | _ => jparseElemList (fuel + 1) s []

/-- Parse a nonempty item list, accumulating decoded values. -/
def jparseElemList : Nat → Str → List J → Option (J × Str)
  | 0, _, _ => none
  | fuel + 1, s, acc =>
    match jparseVal fuel s with
    | none => none
    | some (v, rest) =>
      match skipWs rest with
      | ',' :: rest2 => jparseElemList fuel rest2 (acc ++ [v])
      | ']' :: rest2 => some (J.arr (acc ++ [v]), rest2)
      | _ => none

end

/-- Model of Python `json.loads`: parse one value, require only
whitespace after it. -/
def jsonLoads (s : Str) : Option J :=
  match jparseVal (s.length + 1) s with
  | some (v, rest) => if skipWs rest = [] then some v else none
  | none => none

/-! ## The log-line parsers

`initial_sync.py` and `src/main.py` each define a `parse_log_line`.  Both
strip the line, try an ordered list of format matchers, and absorb any
exception into a `None` result (the whole body sits in `try`/`except`).
The regexes are modelled by deterministic matchers; a lazy group followed
by a literal separator matches up to the first occurrence of that
separator after which the remainder of the pattern can still succeed,
which for these patterns coincides with the plain first occurrence (the
occurrences and closing brackets available to any later attempt are a
subset of those available to the first). -/

/-- A parsed log record `{"content": ..., "metadata": {...}}`. -/
structure PRec where
  content : Str
  metadata : Dict

/-- Outcome of one format matcher inside the `try` block: fall through to
the next format, stop with `None` (an exception or an explicit
`return None`), or produce a record. -/
inductive PStep where
  | fall : PStep
  | stop : PStep
  | hit : PRec → PStep

/-- Character class `[\d\-T:.Z]` of the timestamp portion of the legacy
formats. -/
def tsClassB (c : Char) : Bool :=
  c.isDigit || c = '-' || c = 'T' || c = ':' || c = '.' || c = 'Z'

/-- Shared head `^([\d\-T:.Z]+) - ` of the timestamp-prefixed formats:
the maximal class prefix (backtracking cannot shorten it, since the
following literal is a space, which is outside the class), the literal
separator, and the remainder. -/
def tsSplit (l : Str) : Option (Str × Str) :=
  let ts := l.takeWhile tsClassB
  if ts.isEmpty then none
  else
    match dropLit " - ".toList (l.drop ts.length) with
    | some rest => some (ts, rest)
    | none => none

/-- Does the list start with the given character? -/
def startsWithC (c : Char) (l : Str) : Bool :=
  match l with
  | c' :: _ => c' = c
  | [] => false

/-- Does the list end with the given character? -/
def endsWithC (c : Char) (l : Str) : Bool :=
  decide (l.getLast? = some c)

/-- Python `s.replace('\\n', '\n')`: every literal backslash-n pair
becomes a newline (left to right, non-overlapping). -/
def replaceEscN : Str → Str
  | [] => []
  | '\\' :: 'n' :: rest => '\n' :: replaceEscN rest
  | c :: rest => c :: replaceEscN rest

/-- The cleanup `query.replace('\\n', '\n').strip()` applied to a captured group. -/
def cleanField (s : Str) : Str := pstrip (replaceEscN s)

/-- Username group `@?([^\]]+)\]`: an optional `@` is consumed greedily,
backtracking to an empty match (the `@` then opens the username) when the
username group would otherwise be empty.  Returns the username and the
input after the closing bracket. -/
def userSplit (s : Str) : Option (Str × Str) :=
  match s with
  | '@' :: rest =>
    let u := rest.takeWhile (fun c => c ≠ ']')
    if u.isEmpty then
      let u2 := s.takeWhile (fun c => c ≠ ']')
      match s.drop u2.length with
      | ']' :: rest2 => some (u2, rest2)
      | _ => none
    else
      match rest.drop u.length with
      | ']' :: rest2 => some (u, rest2)
      | _ => none
  | _ =>
    let u := s.takeWhile (fun c => c ≠ ']')
    if u.isEmpty then none
    else
      match s.drop u.length with
      | ']' :: rest2 => some (u, rest2)
      | _ => none

/-- Tail pattern `(?:\\n)*"?$` closing the plain bracketed legacy form. -/
def tailOkOld : Str → Bool
  | [] => true
  | ['"'] => true
  | '\\' :: 'n' :: rest => tailOkOld rest
  | _ => false

/-- Lazy reply group `(.*?)\](?:\\n)*"?$`: the reply extends to the first
closing bracket whose tail matches `tailOkOld`. -/
def findReply : Str → Option Str
  | [] => none
  | ']' :: rest =>
    if tailOkOld rest then some []
    else (findReply rest).map (fun r => ']' :: r)
  | c :: rest => (findReply rest).map (fun r => c :: r)

namespace InitialSync

/-- Format 3 of `initial_sync.parse_log_line`:
`^([\d\-T:.Z]+) - "\[User: @?([^\]]+)\],\\n \[Query: (.*?)\],\\n \[reply: (.*?)\](?:\\n)*"?$`
(DOTALL).  Returns (timestamp, username, query, reply) raw groups. -/
def matchOld (l : Str) : Option (Str × Str × Str × Str) :=
  match tsSplit l with
  | none => none
  | some (ts, rest) =>
    match dropLit "\"[User: ".toList rest with
    | none => none
    | some s =>
      match userSplit s with
      | none => none
      | some (u, s1) =>
        match dropLit ",\\n [Query: ".toList s1 with
        | none => none
        | some s2 =>
          match splitFirst "],\\n [reply: ".toList s2 with
          | none => none
          | some (q, s3) =>
            match findReply s3 with
            | none => none
            | some r => some (ts, u, q, r)

/-- Format 4 (the search-engine-result variant):
`^([\d\-T:.Z]+) - "\[User: @?([^\]]+)\],\\n \[Query: (.*?)\],\\n \[Google result: .*?\],\\n \[reply: (.*?)\]`
(DOTALL, no end anchor). -/
def matchGoogle (l : Str) : Option (Str × Str × Str × Str) :=
  match tsSplit l with
  | none => none
  | some (ts, rest) =>
    match dropLit "\"[User: ".toList rest with
    | none => none
    | some s =>
      match userSplit s with
      | none => none
      | some (u, s1) =>
        match dropLit ",\\n [Query: ".toList s1 with
        | none => none
        | some s2 =>
          match splitFirst "],\\n [Google result: ".toList s2 with
          | none => none
          | some (q, s3) =>
            match splitFirst "],\\n [reply: ".toList s3 with
            | none => none
            | some (_g, s4) =>
              match splitFirst "]".toList s4 with
              | none => none
              | some (r, _) => some (ts, u, q, r)

/-- The record built from a decoded JSON object (formats 1 and 2 share
it; `str(...)` wraps `server` and `user`, the f-string template renders
the other values). -/
def jsonRec (kvs : Dict) : PRec :=
  { content :=
      "User ".toList ++ pyStr (jGetD kvs "username".toList (J.str "unknown".toList))
        ++ " asked: ".toList ++ pyStr (jGetD kvs "query".toList J.null)
        ++ "\nBot replied: ".toList ++ pyStr (jGetD kvs "reply".toList J.null)
    metadata :=
      [ ("server".toList, J.str (pyStr (jGetD kvs "server".toList (J.str "unknown".toList)))),
        ("user".toList, J.str (pyStr (jGetD kvs "user".toList (J.str "unknown".toList)))),
        ("username".toList, jGetD kvs "username".toList (J.str "unknown".toList)),
        ("timestamp".toList, jGetD kvs "timestamp".toList J.null),
        ("provider".toList, jGetD kvs "provider".toList (J.str "unknown".toList)),
        ("source".toList, J.str "initial_sync".toList) ] }

/-- The record built from a bracketed legacy match (query and reply
already cleaned). -/
def oldRec (ts u q r : Str) (provider : Str) : PRec :=
  { content :=
      "User ".toList ++ u ++ " asked: ".toList ++ q
        ++ "\nBot replied: ".toList ++ r
    metadata :=
      [ ("server".toList, J.str "unknown".toList),
        ("user".toList, J.str "unknown".toList),
        ("username".toList, J.str u),
        ("timestamp".toList, J.str ts),
        ("provider".toList, J.str provider),
        ("source".toList, J.str "initial_sync".toList) ] }

/-- Format 1: a pure JSON object line with `query`, `reply` and `user`
fields.  A decode failure raises, so the surrounding `except` yields
`None`; a decoded object missing a field falls through. -/
def try1 (l : Str) : PStep :=
  if startsWithC '{' l && endsWithC '}' l then
    match jsonLoads l with
    | none => .stop
    | some (J.obj kvs) =>
      if (jGet kvs "query".toList).isSome && (jGet kvs "reply".toList).isSome
          && (jGet kvs "user".toList).isSome
      then .hit (jsonRec kvs) else .fall
    | some _ => .fall  -- unreachable: a JSON text in braces decodes to an object
  else .fall

/-- Format 2: `^([\d\-T:.Z]+) - ({.*})$` followed by the same JSON
decoding.  Without DOTALL the body may not contain a newline. -/
def try2 (l : Str) : PStep :=
  match tsSplit l with
  | none => .fall
  | some (_ts, rest) =>
    if startsWithC '{' rest && endsWithC '}' rest && rest.all (fun c => c ≠ '\n') then
      match jsonLoads rest with
      | none => .stop
      | some (J.obj kvs) =>
        if (jGet kvs "query".toList).isSome && (jGet kvs "reply".toList).isSome
            && (jGet kvs "user".toList).isSome
        then .hit (jsonRec kvs) else .fall
      | some _ => .fall
    else .fall

/-- Format 3 with the noise guard: a cleaned query or reply shorter than
2 characters returns `None`. -/
def try3 (l : Str) : PStep :=
  match matchOld l with
  | none => .fall
  | some (ts, u, q, r) =>
    let q' := cleanField q
    let r' := cleanField r
    if q'.length < 2 || r'.length < 2 then .stop
    else .hit (oldRec ts u q' r' "legacy".toList)

/-- Format 4 with the same noise guard. -/
def try4 (l : Str) : PStep :=
  match matchGoogle l with
  | none => .fall
  | some (ts, u, q, r) =>
    let q' := cleanField q
    let r' := cleanField r
    if q'.length < 2 || r'.length < 2 then .stop
    else .hit (oldRec ts u q' r' "legacy_google".toList)

/-- The bulk importer's `parse_log_line`: strip, reject blanks and the
operational banner, then try the four formats in order. -/
def parse_log_line (line : Str) : Option PRec :=
  let l := pstrip line
  if l.isEmpty then none
  else if containsSub l "Added to conversation log".toList then none
  else
    match try1 l with
    | .hit r => some r
    | .stop => none
    | .fall =>
      match try2 l with
      | .hit r => some r
      | .stop => none
      | .fall =>
        match try3 l with
        | .hit r => some r
        | .stop => none
        | .fall =>
          match try4 l with
          | .hit r => some r
          | .stop => none
          | .fall => none

end InitialSync

namespace MainApp

/-- The legacy-format regex of `src/main.py`:
`^([\d\-T:.Z]+) - "\[User: @?([^\]]+)\],\\n \[Query: ([^\]]*)\],\\n \[reply: ([^\]]*)\]`
(no DOTALL needed: the groups are bracket-free classes; no end anchor). -/
def matchOld (l : Str) : Option (Str × Str × Str × Str) :=
  match tsSplit l with
  | none => none
  | some (ts, rest) =>
    match dropLit "\"[User: ".toList rest with
    | none => none
    | some s =>
      match userSplit s with
      | none => none
      | some (u, s1) =>
        match dropLit ",\\n [Query: ".toList s1 with
        | none => none
        | some s2 =>
          let q := s2.takeWhile (fun c => c ≠ ']')
          match dropLit "],\\n [reply: ".toList (s2.drop q.length) with
          | none => none
          | some s3 =>
            let r := s3.takeWhile (fun c => c ≠ ']')
            match s3.drop r.length with
            | ']' :: _ => some (ts, u, q, r)
            | _ => none

/-- Record built from the JSON format of `src/main.py` (`user` is not
required; raw values are stored, the regex timestamp is the fallback). -/
def jsonRec (tsHead : Str) (kvs : Dict) : PRec :=
  { content :=
      "User ".toList ++ pyStr (jGetD kvs "username".toList (J.str "unknown".toList))
        ++ " asked: ".toList ++ pyStr (jGetD kvs "query".toList J.null)
        ++ "\nBot replied: ".toList ++ pyStr (jGetD kvs "reply".toList J.null)
    metadata :=
      [ ("server".toList, jGetD kvs "server".toList (J.str "unknown".toList)),
        ("user".toList, jGetD kvs "user".toList (J.str "unknown".toList)),
        ("username".toList, jGetD kvs "username".toList (J.str "unknown".toList)),
        ("timestamp".toList, jGetD kvs "timestamp".toList (J.str tsHead)),
        ("provider".toList, jGetD kvs "provider".toList (J.str "unknown".toList)),
        ("source".toList, J.str "sync".toList) ] }

/-- Record built from the legacy format of `src/main.py` (query and reply
already cleaned; note: no minimum-length guard in this parser). -/
def oldRec (ts u q r : Str) : PRec :=
  { content :=
      "User ".toList ++ u ++ " asked: ".toList ++ q
        ++ "\nBot replied: ".toList ++ r
    metadata :=
      [ ("server".toList, J.str "unknown".toList),
        ("user".toList, J.str "unknown".toList),
        ("username".toList, J.str u),
        ("timestamp".toList, J.str ts),
        ("provider".toList, J.str "legacy".toList),
        ("source".toList, J.str "sync".toList) ] }

/-- JSON format `^([\d\-T:.Z]+) - ({.*})$` of `src/main.py`; only
`query` and `reply` are required. -/
def tryJson (l : Str) : PStep :=
  match tsSplit l with
  | none => .fall
  | some (ts, rest) =>
    if startsWithC '{' rest && endsWithC '}' rest && rest.all (fun c => c ≠ '\n') then
      match jsonLoads rest with
      | none => .stop
      | some (J.obj kvs) =>
        if (jGet kvs "query".toList).isSome && (jGet kvs "reply".toList).isSome
        then .hit (jsonRec ts kvs) else .fall
      | some _ => .fall
    else .fall

/-- Legacy format of `src/main.py`: clean the groups and accept, with no
length check. -/
def tryOld (l : Str) : PStep :=
  match matchOld l with
  | none => .fall
  | some (ts, u, q, r) => .hit (oldRec ts u (cleanField q) (cleanField r))

/-- The serving app's `parse_log_line` (`src/main.py`): strip, reject blanks, then the JSON
format and the legacy format (no banner check in this parser). -/
def parse_log_line (line : Str) : Option PRec :=
  let l := pstrip line
  if l.isEmpty then none
  else
    match tryJson l with
    | .hit r => some r
    | .stop => none
    | .fall =>
      match tryOld l with
      | .hit r => some r
      | .stop => none
      | .fall => none

end MainApp

/-! ## The vector store (`rag.py` over a ChromaDB collection)

The embedding model and the cosine metric are a black box: an `Env`
carries an arbitrary deterministic hash function (the md5 hex digest) and
an arbitrary distance function standing for `embed`+`cosine`.  Every
theorem below holds for every `Env`. -/

/-- The injected capabilities of `RAGService`: the md5 hex digest used
for content-addressed ids, and the composite
`distance(embed(query), embed(content))` of the black-box index. -/
structure Env where
  md5 : Str → Str
  dist : Str → Str → Nat

/-- One stored document of the ChromaDB collection. -/
structure StoredDoc where
  id : Str
  content : Str
  metadata : Dict

/-- The persistent collection. -/
structure Collection where
  docs : List StoredDoc

/-- The ids present in a collection. -/
def Collection.ids (c : Collection) : List Str := c.docs.map (fun d => d.id)

/-- Model of `collection.count()`. -/
def Collection.count (c : Collection) : Nat := c.docs.length

/-- Model of `collection.add` for one id: inserting an id already present in the
collection is a no-op (the library warns about the existing embedding id
and skips the insert, which is what makes content-addressed re-ingestion
idempotent). -/
def Collection.add (c : Collection) (id content : Str) (md : Dict) : Collection :=
  if c.docs.any (fun d => decide (d.id = id)) then c
  else { docs := c.docs ++ [{ id := id, content := content, metadata := md }] }

namespace RAGService

/-- The content-addressed document id:
`hashlib.md5(f"{content}{metadata.get('timestamp', '')}".encode()).hexdigest()`. -/
def doc_id (e : Env) (content : Str) (md : Dict) : Str :=
  e.md5 (content ++ pyStr (jGetD md "timestamp".toList (J.str [])))

/-- Model of `RAGService.add_document`: embed and insert one document, returning
its id and the new collection state. -/
def add_document (e : Env) (c : Collection) (content : Str) (md : Dict) :
    Str × Collection :=
  let did := doc_id e content md
  (did, c.add did content md)

/-- Model of `RAGService.add_documents_batch`: compute all ids, batch-embed, add
all documents in order; returns `len(documents)` and the new state. -/
def add_documents_batch (e : Env) (c : Collection) (documents : List PRec) :
    Nat × Collection :=
  if documents.isEmpty then (0, c)
  else
    (documents.length,
     documents.foldl
       (fun acc doc => acc.add (doc_id e doc.content doc.metadata) doc.content doc.metadata)
       c)

/-- A search result `{"content": ..., "metadata": ..., "distance": ...}`. -/
structure SearchResult where
  content : Str
  metadata : Dict
  distance : Nat

/-- The `where` clause built by `search`: only a truthy `user_filter`
produces one. -/
def whereOf (user_filter : J) : Option J :=
  if pyTruthy user_filter then some user_filter else none

/-- Does a stored document satisfy the optional where clause
`{"user": v}` (metadata field `user` present and equal)? -/
def matchesW (w : Option J) (d : StoredDoc) : Bool :=
  match w with
  | none => true
  | some v =>
    match jGet d.metadata "user".toList with
    | some mv => jBeq mv v
    | none => false

/-- Insertion into a list sorted by a boolean `le`. -/
def insertLe (le : StoredDoc → StoredDoc → Bool) (x : StoredDoc) :
    List StoredDoc → List StoredDoc
  | [] => [x]
  | y :: t => if le x y then x :: y :: t else y :: insertLe le x t

/-- Insertion sort standing for the nearest-neighbor ranking of the
black-box index (ascending distance to the query). -/
def sortByDist (e : Env) (q : Str) : List StoredDoc → List StoredDoc
  | [] => []
  | x :: t => insertLe (fun a b => decide (e.dist q a.content ≤ e.dist q b.content)) x
      (sortByDist e q t)

/-- Model of `RAGService.search(query, k, user_filter)`: empty store short-cut,
optional `where` clause, `n_results = min(k, count)` nearest neighbors
among the documents satisfying the clause. -/
def search (e : Env) (c : Collection) (query : Str) (k : Nat) (user_filter : J) :
    List SearchResult :=
  if c.count = 0 then []
  else
    let w := whereOf user_filter
    let cands := c.docs.filter (matchesW w)
    let ranked := sortByDist e query cands
    (ranked.take (min k c.count)).map
      (fun d => { content := d.content, metadata := d.metadata,
                  distance := e.dist query d.content })

end RAGService

/-! ## The chat endpoint (`src/main.py /chat`) -/

/-- One server entry of `user-mapping.json` (a dict; only the `user` key
is read). -/
abbrev ServerRec := Dict

/-- The username → server-list directory loaded from `user-mapping.json`. -/
abbrev UserMapping := List (Str × List ServerRec)

/-- Model of `find_mentioned_user`: the first username appearing (case-folded
substring) in the message whose server list is nonempty; yields the
username and `servers[0].get('user')`.  A matching username with an empty
server list is skipped.  `(J.null, J.null)` models `(None, None)`. -/
def find_mentioned_user (mapping : UserMapping) (message : Str) : J × J :=
  let ml := lowerS message
  go ml mapping
where
  go (ml : Str) : UserMapping → J × J
    | [] => (J.null, J.null)
    | (username, servers) :: rest =>
      if containsSub ml (lowerS username) then
        match servers with
        | [] => go ml rest
        | s0 :: _ =>
          (J.str username,
           match jGet s0 "user".toList with
           | some v => v
           | none => J.null)
      else go ml rest

/-- The history-question keywords of the `/chat` route. -/
def history_keywords : List Str :=
  ["pernah".toList, "sebelumnya".toList, "riwayat".toList, "history".toList,
   "tanyakan".toList, "bahas".toList, "ngobrol".toList, "cerita".toList]

/-- The test `any(kw in request.message.lower() for kw in history_keywords)`. -/
def is_history_question (message : Str) : Bool :=
  history_keywords.any (fun kw => containsSub (lowerS message) kw)

/-- The generic search query substituted for history questions. -/
def genericQuery : Str := "percakapan topik".toList

/-- The note disclosing that the retrieved context belongs to a third
party (the f-string of line 346 of `src/main.py`). -/
def ownerNoteText (username : J) : Str :=
  "CATATAN: Riwayat percakapan di bawah adalah milik user \x27".toList
    ++ pyStr username
    ++ "\x27, BUKAN user yang bertanya. Jawab dengan menyebut \x27".toList
    ++ pyStr username
    ++ "\x27 atau \x27dia/mereka\x27, bukan \x27kamu\x27.".toList

/-- Everything the `/chat` route computes before calling the generator:
retrieval target, effective search query and neighbor count, retrieved
context, assembled context text and owner note. -/
structure ChatOut where
  is_history : Bool
  mentioned_username : J
  mentioned_user_id : J
  target_user : J
  search_query : Str
  k_results : Nat
  context_docs : List RAGService.SearchResult
  context_text : Str
  owner_note : Str
  sources : List Dict

/-- The retrieval part of the `/chat` route (lines 300-358 of
`src/main.py`), for a request `{message, user}` against the store `c` and
the loaded user mapping. -/
def chat (e : Env) (mapping : UserMapping) (c : Collection)
    (req_user : Option Str) (message : Str) : ChatOut :=
  let is_history := is_history_question message
  let (muname, muid) := find_mentioned_user mapping message
  let req_u := optToJ req_user
  let target_user := if pyTruthy muid && !jBeq muid req_u then muid else req_u
  let search_query := message
  let k_results := 10
  let (search_query, k_results) :=
    if is_history then (genericQuery, 10) else (search_query, k_results)
  let context_docs := RAGService.search e c search_query k_results target_user
  let context_text :=
    if context_docs.isEmpty then []
    else
      let valid := (context_docs.map (fun d => d.content)).filter
        (fun s => !s.isEmpty)
      if valid.isEmpty then [] else (valid.intersperse "\n---\n".toList).flatten
  let owner_note :=
    if pyTruthy muname && !jBeq muid req_u then ownerNoteText muname else []
  { is_history := is_history
    mentioned_username := muname
    mentioned_user_id := muid
    target_user := target_user
    search_query := search_query
    k_results := k_results
    context_docs := context_docs
    context_text := context_text
    owner_note := owner_note
    sources := context_docs.map (fun d => d.metadata) }

/-! ## The incremental sync route (`src/main.py /sync-logs`) -/

namespace MainApp

/-- The persisted `sync_state.json`. -/
structure SyncFileState where
  last_line : Nat
  last_sync : Option Str

/-- The break guard `if request.max_entries and imported >= request.max_entries` (a zero
limit is falsy, hence no limit). -/
def maxGuard (max_entries : Option Nat) (imported : Nat) : Bool :=
  match max_entries with
  | none => false
  | some m => !(m == 0) && m ≤ imported

/-- The loop state of the `/sync-logs` handler. -/
structure LoopState where
  store : Collection
  batch : List PRec
  imported : Nat
  skipped : Nat
  processed : Nat
  current_line : Nat

/-- The flush loop `for item in batch: rag_service.add_document(...); imported += 1`. -/
def flushItems (e : Env) (items : List PRec) (s : LoopState) : LoopState :=
  items.foldl
    (fun st it =>
      { st with
        store := (RAGService.add_document e st.store it.content it.metadata).2,
        imported := st.imported + 1 })
    s

/-- The `for line in f` loop of `/sync-logs`: count the line, test the
max-entries break, parse, batch, flush a full batch. -/
def syncLoop (e : Env) (bsize : Nat) (maxe : Option Nat) :
    List Str → LoopState → LoopState
  | [], s => s
  | line :: rest, s =>
    let s1 := { s with current_line := s.current_line + 1,
                       processed := s.processed + 1 }
    if maxGuard maxe s1.imported then s1
    else
      let s2 :=
        match parse_log_line line with
        | some d => { s1 with batch := s1.batch ++ [d] }
        | none => { s1 with skipped := s1.skipped + 1 }
      let s3 :=
        if bsize ≤ s2.batch.length then { flushItems e s2.batch s2 with batch := [] }
        else s2
      syncLoop e bsize maxe rest s3

/-- What `/sync-logs` returns (and the state it persists). -/
structure SyncResult where
  store : Collection
  state : SyncFileState
  imported : Nat
  skipped : Nat
  processed : Nat
  sync_position : Nat

/-- The `/sync-logs` handler over a log file given as its list of lines:
skip to the saved position (or 0 under `force_full`), run the loop, flush
the remaining partial batch, persist the new sync state. -/
def sync_logs (e : Env) (c : Collection) (st : SyncFileState) (lines : List Str)
    (batch_size : Nat) (max_entries : Option Nat) (force_full : Bool)
    (now : Str) : SyncResult :=
  let start := if force_full then 0 else st.last_line
  let s0 : LoopState :=
    { store := c, batch := [], imported := 0, skipped := 0, processed := 0,
      current_line := start }
  let s1 := syncLoop e batch_size max_entries (lines.drop start) s0
  let s2 := flushItems e s1.batch s1
  { store := s2.store,
    state := { last_line := s2.current_line, last_sync := some now },
    imported := s2.imported, skipped := s2.skipped, processed := s2.processed,
    sync_position := s2.current_line }

/-- Specification companion of `syncLoop`: the documents the run inserts
from here on (current batch included once flushed), in insertion order.
Its recursion mirrors `syncLoop`; it does not read the store, which is
what makes two runs over the same file insert the same documents. -/
def syncAdded (bsize : Nat) (maxe : Option Nat) :
    List Str → List PRec → Nat → List PRec
  | [], batch, _ => batch
  | line :: rest, batch, imported =>
    if maxGuard maxe imported then batch
    else
      let batch' :=
        match parse_log_line line with
        | some d => batch ++ [d]
        | none => batch
      if bsize ≤ batch'.length then
        batch' ++ syncAdded bsize maxe rest [] (imported + batch'.length)
      else syncAdded bsize maxe rest batch' imported

end MainApp

/-- Fold `add_document` over a list of records. -/
def addAll (e : Env) (c : Collection) (items : List PRec) : Collection :=
  items.foldl
    (fun acc it => (RAGService.add_document e acc it.content it.metadata).2) c

/-! ## The bulk import (`initial_sync.run_initial_sync`) -/

namespace InitialSync

/-- The persisted `initial_sync_checkpoint.json`. -/
structure Checkpoint where
  last_line : Nat
  imported : Nat
  started_at : Option Str
  completed_at : Option Str

/-- The break guard `if limit and imported >= limit` (a zero limit is falsy). -/
def limitGuard (limit : Option Nat) (imported : Nat) : Bool :=
  match limit with
  | none => false
  | some m => !(m == 0) && m ≤ imported

/-- The state of a `run_initial_sync` invocation.  `checkpoint` is the
checkpoint as last written to disk.  `lastFlushedLine` is a specification
ghost (not a variable of the source): the line position up to which every
parsed record has been flushed to the store — the resume point already
committed at start, advanced at each completed batch flush. -/
structure RunState where
  store : Collection
  batch : List PRec
  current_line : Nat
  imported : Nat
  skipped : Nat
  checkpoint : Checkpoint
  lastFlushedLine : Nat

/-- The `for line in f` loop of `run_initial_sync`: count the line, skip
lines at or before the checkpoint position, test the limit break, parse,
batch; a full batch is flushed with `add_documents_batch` and the
checkpoint is advanced to the current line and saved. -/
def runLoop (e : Env) (bsize : Nat) (limit : Option Nat) (start ti : Nat) :
    List Str → RunState → RunState
  | [], s => s
  | line :: rest, s =>
    let s1 := { s with current_line := s.current_line + 1 }
    if s1.current_line ≤ start then runLoop e bsize limit start ti rest s1
    else if limitGuard limit s1.imported then s1
    else
      let s2 :=
        match parse_log_line line with
        | some d => { s1 with batch := s1.batch ++ [d] }
        | none => { s1 with skipped := s1.skipped + 1 }
      let s3 :=
        if bsize ≤ s2.batch.length then
          let ab := RAGService.add_documents_batch e s2.store s2.batch
          let imported' := s2.imported + ab.1
          { s2 with
            store := ab.2
            imported := imported'
            batch := []
            checkpoint := { s2.checkpoint with
                              last_line := s2.current_line
                              imported := ti + imported' }
            lastFlushedLine := s2.current_line }
        else s2
      runLoop e bsize limit start ti rest s3

/-- An uninterrupted `run_initial_sync` over the log file `lines`: run
the loop from the loaded checkpoint, flush the remaining partial batch,
save the final checkpoint with a completion timestamp. -/
def run_initial_sync (e : Env) (bsize : Nat) (limit : Option Nat)
    (cp0 : Checkpoint) (c0 : Collection) (lines : List Str) (now : Str) :
    RunState :=
  let start := cp0.last_line
  let ti := cp0.imported
  let cp1 := if 0 < start then cp0 else { cp0 with started_at := some now }
  let s0 : RunState :=
    { store := c0, batch := [], current_line := 0, imported := 0, skipped := 0,
      checkpoint := cp1, lastFlushedLine := start }
  let s1 := runLoop e bsize limit start ti lines s0
  let s2 :=
    if s1.batch.isEmpty then s1
    else
      let ab := RAGService.add_documents_batch e s1.store s1.batch
      { s1 with store := ab.2, imported := s1.imported + ab.1 }
  { s2 with
    checkpoint := { s2.checkpoint with
                      last_line := s2.current_line
                      imported := ti + s2.imported
                      completed_at := some now }
    lastFlushedLine := s2.current_line }

/-- Model of `run_initial_sync` interrupted by `KeyboardInterrupt` after `j`
iterations of the line loop: the handler saves a checkpoint holding the
current line position and import count — whether or not the records
parsed from the lines read since the last flush have been written. -/
def run_initial_sync_interrupted (e : Env) (bsize : Nat) (limit : Option Nat)
    (cp0 : Checkpoint) (c0 : Collection) (lines : List Str) (j : Nat)
    (now : Str) : RunState :=
  let start := cp0.last_line
  let ti := cp0.imported
  let cp1 := if 0 < start then cp0 else { cp0 with started_at := some now }
  let s0 : RunState :=
    { store := c0, batch := [], current_line := 0, imported := 0, skipped := 0,
      checkpoint := cp1, lastFlushedLine := start }
  let s1 := runLoop e bsize limit start ti (lines.take j) s0
  { s1 with
    checkpoint := { s1.checkpoint with
                      last_line := s1.current_line
                      imported := ti + s1.imported } }

end InitialSync

/-! ## Concrete instances used by witnesses -/

/-- A concrete environment (any deterministic hash and distance work). -/
def envW : Env := { md5 := fun s => s, dist := fun _ _ => 0 }

/-- Metadata of a mixed-owner demonstration corpus. -/
def mdW (u : String) : Dict :=
  [("user".toList, J.str u.toList), ("timestamp".toList, J.str "t1".toList)]

/-- A two-owner demonstration store. -/
def storeW : Collection :=
  { docs :=
      [ { id := "1".toList, content := "alice doc".toList, metadata := mdW "u1" },
        { id := "2".toList, content := "bob doc".toList, metadata := mdW "u2" } ] }

/-- The search result the owner-scoped demonstration query returns. -/
def resW : RAGService.SearchResult :=
  { content := "alice doc".toList, metadata := mdW "u1", distance := 0 }

/-- A demonstration user directory mapping the name `bob` to owner `u2`. -/
def mappingW : UserMapping :=
  [("bob".toList, [[("user".toList, J.str "u2".toList)]])]

/-- A parseable bracketed-legacy log line with the given query text. -/
def lineW (q : String) : Str :=
  ("2024-01-01T00:00:00Z - \"[User: @alice],\\n [Query: " ++ q
    ++ "],\\n [reply: okay]\"").toList

/-- A three-line log file of parseable records. -/
def logW : List Str := [lineW "hello", lineW "world", lineW "third"]

/-- The zero checkpoint. -/
def cpZeroW : InitialSync.Checkpoint :=
  { last_line := 0, imported := 0, started_at := none, completed_at := none }

/-- The state after running the bulk import over `logW` with batch size 2
and being interrupted right after the third line was read (the third
record is still in the unflushed batch). -/
def interruptedW : InitialSync.RunState :=
  InitialSync.run_initial_sync_interrupted envW 2 none cpZeroW
    (Collection.mk []) logW 3 "now".toList

/-- A bracketed-legacy line whose query is a single character. -/
def shortQueryLineW : Str :=
  "2024-01-01T00:00:00Z - \"[User: @bob],\\n [Query: x],\\n [reply: hello]\"".toList

/-! ## Helper lemmas -/

theorem jBeq_eq_of_str {v : J} {s : Str} (h : jBeq v (J.str s) = true) :
    v = J.str s := by
  cases v <;> simp_all [jBeq]

theorem mem_insertLe {le : StoredDoc → StoredDoc → Bool} {x y : StoredDoc}
    {l : List StoredDoc} :
    y ∈ RAGService.insertLe le x l ↔ y = x ∨ y ∈ l := by
  induction l with
  | nil => simp [RAGService.insertLe]
  | cons a t ih =>
    by_cases h : le x a
    · simp [RAGService.insertLe, h, ih]
    · simp [RAGService.insertLe, h, ih]
      tauto

theorem mem_sortByDist {e : Env} {q : Str} {y : StoredDoc} {l : List StoredDoc} :
    y ∈ RAGService.sortByDist e q l ↔ y ∈ l := by
  induction l with
  | nil => simp [RAGService.sortByDist]
  | cons a t ih => simp [RAGService.sortByDist, mem_insertLe, ih]

theorem length_insertLe (le : StoredDoc → StoredDoc → Bool) (x : StoredDoc)
    (l : List StoredDoc) :
    (RAGService.insertLe le x l).length = l.length + 1 := by
  induction l with
  | nil => simp [RAGService.insertLe]
  | cons a t ih =>
    by_cases h : le x a <;> simp [RAGService.insertLe, h, ih]

theorem length_sortByDist (e : Env) (q : Str) (l : List StoredDoc) :
    (RAGService.sortByDist e q l).length = l.length := by
  induction l with
  | nil => rfl
  | cons a t ih => simp [RAGService.sortByDist, length_insertLe, ih]

/-! ## The claims -/

/-- C1.  Owner isolation: for every store state, query, requested count
and non-empty owner filter `A`, every result of
`search(query, k, user_filter = A)` has metadata `user` field equal to
`A`; a document of another owner is never returned. -/
theorem claim_owner_isolation (e : Env) (c : Collection) (q : Str) (k : Nat)
    (A : Str) (hA : A ≠ []) (r : RAGService.SearchResult)
    (hr : r ∈ RAGService.search e c q k (J.str A)) :
    jGet r.metadata "user".toList = some (J.str A) := by
  unfold RAGService.search at hr
  by_cases hc : c.count = 0
  · simp [hc] at hr
  · rw [if_neg hc] at hr
    have hw : RAGService.whereOf (J.str A) = some (J.str A) := by
      cases A with
      | nil => exact absurd rfl hA
      | cons a t => simp [RAGService.whereOf, pyTruthy]
    rw [hw] at hr
    obtain ⟨d, hd, hrd⟩ := List.mem_map.mp hr
    have hd2 := mem_sortByDist.mp (List.mem_of_mem_take hd)
    have hd3 := (List.mem_filter.mp hd2).2
    unfold RAGService.matchesW at hd3
    subst hrd
    cases hmv : jGet d.metadata "user".toList with
    | none => rw [hmv] at hd3; exact absurd hd3 (by simp)
    | some mv =>
      rw [hmv] at hd3
      rw [jBeq_eq_of_str hd3]

/-- C1 witness: in the two-owner demonstration store, the result of the
`u1`-scoped search carries owner `u1`. -/
theorem claim_owner_isolation_witness :
    ("u1".toList ≠ ([] : Str)) ∧
    jGet resW.metadata "user".toList = some (J.str "u1".toList) :=
  ⟨by decide,
   claim_owner_isolation envW storeW "q".toList 5 "u1".toList (by decide) resW
     (by
       rw [show RAGService.search envW storeW "q".toList 5 (J.str "u1".toList)
             = [resW] from rfl]
       exact List.mem_singleton_self _)⟩

/-- C4.  For every store state and requested neighbor count, `search`
returns at most `count` results (the count is clamped with
`min(k, count)` before the index is queried), and an empty store yields
the empty list rather than an error. -/
theorem claim_search_clamped (e : Env) (c : Collection) (q : Str) (k : Nat)
    (u : J) :
    (RAGService.search e c q k u).length ≤ c.count ∧
    (c.count = 0 → RAGService.search e c q k u = []) := by
  constructor
  · unfold RAGService.search
    by_cases hc : c.count = 0
    · simp [hc]
    · rw [if_neg hc]
      have hf : (c.docs.filter (RAGService.matchesW (RAGService.whereOf u))).length
          ≤ c.docs.length := List.length_filter_le _ _
      simp only [List.length_map, List.length_take, length_sortByDist]
      calc min (min k c.count)
            (c.docs.filter (RAGService.matchesW (RAGService.whereOf u))).length
          ≤ min k c.count := min_le_left _ _
        _ ≤ c.count := min_le_right _ _
  · intro h
    simp [RAGService.search, h]

/-- C4 witness: a request for 1000 neighbors against the two-document
demonstration store yields at most 2 results, and the empty store yields
`[]`. -/
theorem claim_search_clamped_witness :
    (RAGService.search envW storeW "q".toList 1000 J.null).length ≤ storeW.count ∧
    ((Collection.mk []).count = 0 →
      RAGService.search envW (Collection.mk []) "q".toList 1000 J.null = []) :=
  ⟨(claim_search_clamped envW storeW "q".toList 1000 J.null).1,
   (claim_search_clamped envW (Collection.mk []) "q".toList 1000 J.null).2⟩

/-- A truthy value is never `None`, so comparing it to `None` with
Python `==` is false. -/
theorem jBeq_null_of_truthy {v : J} (h : pyTruthy v = true) :
    jBeq v J.null = false := by
  cases v <;> simp_all [pyTruthy, jBeq]

/-- C2 (amended).  A `None` or empty owner filter builds no `where`
clause: such a search ranges over every stored document regardless of
owner.  A chat request whose `user` field is absent passes exactly that
unrestricted filter when its message resolves through the directory to
no truthy user id; when the message does resolve to a truthy id, the
search is instead scoped to that id (a `where` clause is built for it). -/
theorem claim_unscoped_search (e : Env) (c : Collection) (q : Str) (k : Nat) :
    RAGService.whereOf J.null = none ∧
    RAGService.whereOf (J.str []) = none ∧
    RAGService.search e c q k J.null = RAGService.search e c q k (J.str []) ∧
    c.docs.filter (RAGService.matchesW (RAGService.whereOf J.null)) = c.docs ∧
    (∀ (mapping : UserMapping) (msg : Str),
      pyTruthy (find_mentioned_user mapping msg).2 = false →
      (chat e mapping c none msg).target_user = J.null ∧
      (chat e mapping c none msg).context_docs
        = RAGService.search e c (chat e mapping c none msg).search_query
            (chat e mapping c none msg).k_results J.null) ∧
    (∀ (mapping : UserMapping) (msg : Str),
      pyTruthy (find_mentioned_user mapping msg).2 = true →
      (chat e mapping c none msg).target_user = (find_mentioned_user mapping msg).2 ∧
      RAGService.whereOf (chat e mapping c none msg).target_user
        = some (find_mentioned_user mapping msg).2) := by
  refine ⟨rfl, rfl, rfl, ?_, ?_, ?_⟩
  · exact List.filter_eq_self.mpr (fun d _ => rfl)
  · intro mapping msg h
    rcases hp : find_mentioned_user mapping msg with ⟨mu, mi⟩
    rw [hp] at h
    simp only at h
    constructor
    · simp [chat, hp, h, optToJ]
    · simp [chat, hp, h, optToJ]
  · intro mapping msg h
    rcases hp : find_mentioned_user mapping msg with ⟨mu, mi⟩
    rw [hp] at h
    simp only at h
    have hb : jBeq mi J.null = false := jBeq_null_of_truthy h
    have ht : (chat e mapping c none msg).target_user = mi := by
      simp [chat, hp, h, hb, optToJ]
    refine ⟨ht, ?_⟩
    rw [ht]
    simp [RAGService.whereOf, h]

/-- C2 witness: with an empty user directory and an absent `user` field
the chat retrieval runs with the `None` owner filter, while with the
`bob → u2` directory and a message mentioning bob the filter becomes
`u2`. -/
theorem claim_unscoped_search_witness :
    (pyTruthy (find_mentioned_user ([] : UserMapping) "halo".toList).2 = false ∧
     (chat envW ([] : UserMapping) storeW none "halo".toList).target_user
       = J.null) ∧
    (pyTruthy
        (find_mentioned_user mappingW "what has bob talked about".toList).2
      = true ∧
     (chat envW mappingW storeW none "what has bob talked about".toList).target_user
       = (find_mentioned_user mappingW "what has bob talked about".toList).2) :=
  ⟨⟨by decide,
    ((claim_unscoped_search envW storeW "halo".toList 10).2.2.2.2.1
       [] "halo".toList (by decide)).1⟩,
   ⟨by decide,
    ((claim_unscoped_search envW storeW "halo".toList 10).2.2.2.2.2
       mappingW "what has bob talked about".toList (by decide)).1⟩⟩

/-- C2 counterexample: a chat request with an absent `user` field whose
message mentions the directory-mapped name `bob` does not run an
owner-unscoped search — the effective filter becomes `u2`, a `where`
clause is built for it, and the retrieval returns only `u2`'s single
document where the unrestricted search over the same store returns
both owners' two documents. -/
theorem claim_unscoped_search_cex :
    (chat envW mappingW storeW none "what has bob talked about".toList).target_user
      = J.str "u2".toList ∧
    RAGService.whereOf
        (chat envW mappingW storeW none "what has bob talked about".toList).target_user
      = some (J.str "u2".toList) ∧
    (chat envW mappingW storeW none
        "what has bob talked about".toList).context_docs.length = 1 ∧
    (RAGService.search envW storeW "what has bob talked about".toList 10
        J.null).length = 2 :=
  ⟨rfl, rfl, by decide, by decide⟩

/-- Collections: the freshly inserted id is present afterwards. -/
theorem mem_ids_add (c : Collection) (id ct : Str) (md : Dict) :
    id ∈ (c.add id ct md).ids := by
  unfold Collection.add
  by_cases h : c.docs.any (fun d => decide (d.id = id))
  · rw [if_pos h]
    obtain ⟨d, hd, hdi⟩ := List.any_eq_true.mp h
    exact List.mem_map.mpr ⟨d, hd, of_decide_eq_true hdi⟩
  · rw [if_neg h]
    unfold Collection.ids
    simp

/-- Collections: insertion preserves present ids. -/
theorem mem_ids_add_of_mem {c : Collection} {x : Str} (id ct : Str) (md : Dict)
    (h : x ∈ c.ids) : x ∈ (c.add id ct md).ids := by
  unfold Collection.add
  by_cases hp : c.docs.any (fun d => decide (d.id = id))
  · rwa [if_pos hp]
  · rw [if_neg hp]
    unfold Collection.ids at h ⊢
    simp only [List.map_append]
    exact List.mem_append_left _ h

/-- Collections: inserting an id that is already present is a no-op. -/
theorem add_eq_of_mem {c : Collection} {id : Str} (ct : Str) (md : Dict)
    (h : id ∈ c.ids) : c.add id ct md = c := by
  unfold Collection.add
  obtain ⟨d, hd, hdi⟩ := List.mem_map.mp h
  rw [if_pos (List.any_eq_true.mpr ⟨d, hd, decide_eq_true hdi⟩)]

/-- C10.  The document id is computed from the content and the
`timestamp` metadata field alone, so two documents with equal content and
timestamp but arbitrarily different remaining metadata (owner, username,
server, provider) receive the same id, and adding both leaves a single
stored document. -/
theorem claim_docid_content_timestamp_only (e : Env) (c0 : Collection)
    (content : Str) (m1 m2 : Dict)
    (hts : jGetD m1 "timestamp".toList (J.str [])
         = jGetD m2 "timestamp".toList (J.str [])) :
    RAGService.doc_id e content m1 = RAGService.doc_id e content m2 ∧
    (RAGService.add_document e (RAGService.add_document e c0 content m1).2
        content m2).2
      = (RAGService.add_document e c0 content m1).2 := by
  have hid : RAGService.doc_id e content m1 = RAGService.doc_id e content m2 := by
    unfold RAGService.doc_id
    rw [hts]
  refine ⟨hid, ?_⟩
  show ((RAGService.add_document e c0 content m1).2).add
        (RAGService.doc_id e content m2) content m2
      = (RAGService.add_document e c0 content m1).2
  rw [← hid]
  exact add_eq_of_mem content m2 (mem_ids_add c0 _ content m1)

/-- C10 witness: same content and timestamp under different owner,
username, server and provider metadata give one id and one document. -/
theorem claim_docid_content_timestamp_only_witness :
    RAGService.doc_id envW "c1".toList
        [("user".toList, J.str "u1".toList), ("username".toList, J.str "alice".toList),
         ("server".toList, J.str "s1".toList), ("provider".toList, J.str "p1".toList),
         ("timestamp".toList, J.str "t1".toList)]
      = RAGService.doc_id envW "c1".toList
        [("user".toList, J.str "u2".toList), ("username".toList, J.str "bob".toList),
         ("server".toList, J.str "s2".toList), ("provider".toList, J.str "p2".toList),
         ("timestamp".toList, J.str "t1".toList)] :=
  (claim_docid_content_timestamp_only envW (Collection.mk []) "c1".toList
    _ _ rfl).1

/-- C9.  When the message resolves through the user directory to a
username whose first server entry carries an owner id different from the
requester, the retrieval target becomes that owner id (the search runs
against that owner's history) and a non-empty disclosure note is passed
on to the generator. -/
theorem claim_cross_owner_disclosure (e : Env) (mapping : UserMapping)
    (c : Collection) (req_user : Option Str) (msg : Str) (uname uid : Str)
    (hf : find_mentioned_user mapping msg = (J.str uname, J.str uid))
    (hu : uid ≠ []) (hn : uname ≠ [])
    (hne : J.str uid ≠ optToJ req_user) :
    (chat e mapping c req_user msg).target_user = J.str uid ∧
    (chat e mapping c req_user msg).owner_note ≠ [] ∧
    (chat e mapping c req_user msg).context_docs
      = RAGService.search e c (chat e mapping c req_user msg).search_query
          (chat e mapping c req_user msg).k_results (J.str uid) := by
  have hb : jBeq (J.str uid) (optToJ req_user) = false := by
    cases req_user with
    | none => rfl
    | some s =>
      show (uid == s) = false
      refine beq_eq_false_iff_ne.mpr (fun h => hne ?_)
      rw [h]
      rfl
  have htr : pyTruthy (J.str uid) = true := by
    cases uid with
    | nil => exact absurd rfl hu
    | cons a t => rfl
  have hun : pyTruthy (J.str uname) = true := by
    cases uname with
    | nil => exact absurd rfl hn
    | cons a t => rfl
  have hnote : ownerNoteText (J.str uname) ≠ [] := by
    unfold ownerNoteText
    intro hcontra
    have := congrArg List.length hcontra
    simp at this
  refine ⟨?_, ?_, ?_⟩ <;> simp [chat, hf, hb, htr, hun, hnote]

/-- C9 witness: requester `u1` asking about `bob` (directory `bob → u2`)
is retargeted to owner `u2` with a non-empty note. -/
theorem claim_cross_owner_disclosure_witness :
    (chat envW mappingW storeW (some "u1".toList)
        "what has bob talked about".toList).target_user = J.str "u2".toList ∧
    (chat envW mappingW storeW (some "u1".toList)
        "what has bob talked about".toList).owner_note ≠ [] :=
  let h := claim_cross_owner_disclosure envW mappingW storeW (some "u1".toList)
    "what has bob talked about".toList "bob".toList "u2".toList
    (by rfl) (by decide) (by decide)
    (by intro h; injection h with h2; exact absurd h2 (by decide))
  ⟨h.1, h.2.1⟩

/-- C8 counterexample: for the history question `"pernah bahas apa?"`
the search query is replaced by the generic one, but the neighbor count
stays 10 — exactly the count used for the non-history message `"halo"`;
it is not raised. -/
theorem claim_history_count_cex :
    is_history_question "pernah bahas apa?".toList = true ∧
    (chat envW [] storeW none "pernah bahas apa?".toList).search_query
      = genericQuery ∧
    is_history_question "halo".toList = false ∧
    (chat envW [] storeW none "halo".toList).k_results = 10 ∧
    (chat envW [] storeW none "pernah bahas apa?".toList).k_results = 10 ∧
    ¬((chat envW [] storeW none "pernah bahas apa?".toList).k_results
        > (chat envW [] storeW none "halo".toList).k_results) := by
  refine ⟨by decide, by decide, by decide, by decide, by decide, by decide⟩

/-- C8 (amended).  For every chat message containing a history keyword,
the literal text is replaced by the generic search query
`"percakapan topik"`, while the neighbor count remains 10 — the same
value used for non-history queries. -/
theorem claim_history_generic_query (e : Env) (mapping : UserMapping)
    (c : Collection) (u : Option Str) (msg : Str)
    (h : is_history_question msg = true) :
    (chat e mapping c u msg).search_query = genericQuery ∧
    (chat e mapping c u msg).k_results = 10 ∧
    (∀ msg2 : Str, is_history_question msg2 = false →
      (chat e mapping c u msg2).k_results = 10) := by
  rcases hp : find_mentioned_user mapping msg with ⟨mu, mi⟩
  refine ⟨by simp [chat, hp, h], by simp [chat, hp, h], ?_⟩
  intro msg2 h2
  rcases hp2 : find_mentioned_user mapping msg2 with ⟨mu2, mi2⟩
  simp [chat, hp2, h2]

/-- C8 witness: the amended statement at the concrete history question. -/
theorem claim_history_generic_query_witness :
    (chat envW [] storeW none "pernah bahas apa?".toList).search_query
      = genericQuery ∧
    (chat envW [] storeW none "pernah bahas apa?".toList).k_results = 10 :=
  let h := claim_history_generic_query envW [] storeW none
    "pernah bahas apa?".toList (by decide)
  ⟨h.1, h.2.1⟩

/-- C6.  Both line parsers are total functions: every input yields either
a structured record or `None` (never an exception escaping to the
caller — the models are total Lean functions), and equal inputs yield
equal outputs. -/
theorem claim_parser_total_deterministic (s t : Str) (h : s = t) :
    (InitialSync.parse_log_line s = InitialSync.parse_log_line t ∧
     MainApp.parse_log_line s = MainApp.parse_log_line t) ∧
    ((InitialSync.parse_log_line s).isSome ∨ InitialSync.parse_log_line s = none) ∧
    ((MainApp.parse_log_line s).isSome ∨ MainApp.parse_log_line s = none) := by
  subst h
  refine ⟨⟨rfl, rfl⟩, ?_, ?_⟩
  · cases hx : InitialSync.parse_log_line s with
    | none => exact Or.inr rfl
    | some r => exact Or.inl rfl
  · cases hx : MainApp.parse_log_line s with
    | none => exact Or.inr rfl
    | some r => exact Or.inl rfl

/-- C6 witness at a concrete line. -/
theorem claim_parser_total_deterministic_witness :
    (InitialSync.parse_log_line "garbage line".toList
       = InitialSync.parse_log_line "garbage line".toList ∧
     MainApp.parse_log_line "garbage line".toList
       = MainApp.parse_log_line "garbage line".toList) ∧
    ((InitialSync.parse_log_line "garbage line".toList).isSome ∨
      InitialSync.parse_log_line "garbage line".toList = none) ∧
    ((MainApp.parse_log_line "garbage line".toList).isSome ∨
      MainApp.parse_log_line "garbage line".toList = none) :=
  claim_parser_total_deterministic "garbage line".toList "garbage line".toList rfl

/-- C3 (evaluation of the defect).  Interrupting the bulk import of a
three-line log (batch size 2) after the third line is read saves a
checkpoint whose `last_line` is 3 although the last fully flushed batch
ended at line 2 and the third record sits in the unflushed batch; the
rerun resuming from that checkpoint skips line 3, ending with 2 stored
documents where the uninterrupted run stores 3. -/
theorem claim_checkpoint_past_flush :
    interruptedW.lastFlushedLine = 2 ∧
    interruptedW.checkpoint.last_line = 3 ∧
    interruptedW.lastFlushedLine < interruptedW.checkpoint.last_line ∧
    interruptedW.batch.length = 1 ∧
    interruptedW.store.count = 2 ∧
    (InitialSync.run_initial_sync envW 2 none interruptedW.checkpoint
        interruptedW.store logW "n2".toList).store.count = 2 ∧
    (InitialSync.run_initial_sync envW 2 none cpZeroW (Collection.mk [])
        logW "n2".toList).store.count = 3 :=
  ⟨by decide, by decide, by decide, by decide, by decide, by decide, by decide⟩

/-- A `matchOld` success pins the shape of the line head: a nonempty
timestamp-class prefix, the `" - "` separator, then `"[User: `. -/
theorem matchOld_shape {l : Str} {x : Str × Str × Str × Str}
    (hm : InitialSync.matchOld l = some x) :
    ∃ ts rest s, tsSplit l = some (ts, rest) ∧
      dropLit "\"[User: ".toList rest = some s := by
  unfold InitialSync.matchOld at hm
  split at hm
  · exact absurd hm (by simp)
  · rename_i ts rest heq1
    split at hm
    · exact absurd hm (by simp)
    · rename_i s heq2
      exact ⟨ts, rest, s, heq1, heq2⟩

/-- A line with a successful `tsSplit` starts with a timestamp-class
character, never an opening brace. -/
theorem tsSplit_not_brace {l : Str} {p : Str × Str} (h : tsSplit l = some p) :
    startsWithC '{' l = false := by
  unfold tsSplit at h
  cases l with
  | nil => simp [List.takeWhile] at h
  | cons a t =>
    by_cases ha : tsClassB a
    · cases hq : decide (a = '{') with
      | false => simp [startsWithC, hq]
      | true =>
        have : a = '{' := of_decide_eq_true hq
        rw [this] at ha
        exact absurd ha (by decide)
    · rw [List.takeWhile_cons_of_neg (by simpa using ha)] at h
      simp at h

/-- After a successful `dropLit`, the literal is a prefix of the input. -/
theorem dropLit_isPrefix {lit s r : Str} (h : dropLit lit s = some r) :
    lit.isPrefixOf s = true := by
  unfold dropLit at h
  by_cases hp : lit.isPrefixOf s
  · exact hp
  · rw [if_neg hp] at h; exact absurd h (by simp)

/-- The remainder matched by `matchOld` after `" - "` starts with a
double quote, never the brace required by the JSON-with-timestamp
format. -/
theorem userRest_not_brace {rest s : Str}
    (h : dropLit "\"[User: ".toList rest = some s) :
    startsWithC '{' rest = false := by
  have hp := dropLit_isPrefix h
  cases rest with
  | nil => simp [List.isPrefixOf] at hp
  | cons a t =>
    have ha : '"' = a := by
      simp [List.isPrefixOf] at hp
      exact hp.1
    subst ha
    rfl

/-- A bracketed-legacy match makes format 1 fall through. -/
theorem try1_fall_of_matchOld {l : Str} {x : Str × Str × Str × Str}
    (hm : InitialSync.matchOld l = some x) : InitialSync.try1 l = .fall := by
  obtain ⟨ts, rest, s, h1, h2⟩ := matchOld_shape hm
  unfold InitialSync.try1
  rw [tsSplit_not_brace h1]
  rfl

/-- A bracketed-legacy match makes format 2 fall through. -/
theorem try2_fall_of_matchOld {l : Str} {x : Str × Str × Str × Str}
    (hm : InitialSync.matchOld l = some x) : InitialSync.try2 l = .fall := by
  obtain ⟨ts, rest, s, h1, h2⟩ := matchOld_shape hm
  unfold InitialSync.try2
  rw [h1]
  simp [userRest_not_brace h2]

/-- A line matched by `matchOld` is not blank. -/
theorem matchOld_ne_nil {x : Str × Str × Str × Str}
    (hm : InitialSync.matchOld ([] : Str) = some x) : False := by
  simp [InitialSync.matchOld, tsSplit, List.takeWhile] at hm

/-- C7 (amended).  The bulk-import parser rejects every line whose
bracketed-legacy match captures a query or reply that unescapes and
trims to fewer than 2 characters; the serving-app sync parser applies no
such minimum-length guard, and on the search-engine variant the plain
bracketed matcher fires first with the extra segment absorbed into the
captured query. -/
theorem claim_short_fields_rejected (line ts u q r : Str)
    (hm : InitialSync.matchOld (pstrip line) = some (ts, u, q, r))
    (hshort : (cleanField q).length < 2 ∨ (cleanField r).length < 2) :
    InitialSync.parse_log_line line = none := by
  unfold InitialSync.parse_log_line
  have hne : (pstrip line).isEmpty = false := by
    cases hl : pstrip line with
    | nil => rw [hl] at hm; exact absurd hm (fun hc => matchOld_ne_nil hc)
    | cons a t => rfl
  have h3 : InitialSync.try3 (pstrip line) = .stop := by
    unfold InitialSync.try3
    rw [hm]
    have hcond : ((cleanField q).length < 2 || (cleanField r).length < 2) = true := by
      rcases hshort with h | h
      · exact Bool.or_eq_true_iff.mpr (Or.inl (decide_eq_true h))
      · exact Bool.or_eq_true_iff.mpr (Or.inr (decide_eq_true h))
    simp [hcond]
  simp only [hne, Bool.false_eq_true, if_false]
  by_cases hb : containsSub (pstrip line) "Added to conversation log".toList = true
  · rw [if_pos hb]
  · rw [if_neg hb, try1_fall_of_matchOld hm, try2_fall_of_matchOld hm, h3]

/-- C7 witness: the bulk-import parser rejects the concrete
single-character-query line. -/
theorem claim_short_fields_rejected_witness :
    InitialSync.parse_log_line shortQueryLineW = none :=
  claim_short_fields_rejected shortQueryLineW
    "2024-01-01T00:00:00Z".toList "bob".toList "x".toList "hello".toList
    (by decide) (Or.inl (by decide))

/-- C7 counterexample: the serving-app sync parser accepts the very same
bracketed-legacy line although its query unescapes/trims to a single
character — the claim that such lines parse to `NotParseable` fails for
`src/main.py parse_log_line`. -/
theorem claim_short_fields_cex :
    MainApp.matchOld (pstrip shortQueryLineW)
      = some ("2024-01-01T00:00:00Z".toList, "bob".toList, "x".toList,
              "hello".toList) ∧
    (cleanField "x".toList).length < 2 ∧
    (MainApp.parse_log_line shortQueryLineW).isSome = true :=
  ⟨by decide, by decide, by decide⟩

/-- Unfolding `flushItems`: it folds `add_document` over the items; the store receives
them in order, `imported` grows by their number, and no other loop
variable moves. -/
theorem flushItems_spec (e : Env) (items : List PRec) (s : MainApp.LoopState) :
    MainApp.flushItems e items s =
      { s with store := addAll e s.store items,
               imported := s.imported + items.length } := by
  induction items generalizing s with
  | nil => simp [MainApp.flushItems, addAll]
  | cons it t ih =>
    show MainApp.flushItems e t _ = _
    rw [ih]
    simp [addAll, Nat.add_assoc, Nat.add_comm 1]

/-- Folding an appended list is sequential. -/
theorem addAll_append (e : Env) (c : Collection) (a b : List PRec) :
    addAll e c (a ++ b) = addAll e (addAll e c a) b := by
  simp [addAll, List.foldl_append]

/-- The nil equation of `addAll`. -/
theorem addAll_nil (e : Env) (c : Collection) : addAll e c [] = c := rfl

/-- The cons equation of `addAll`: it peels one document. -/
theorem addAll_cons (e : Env) (c : Collection) (it : PRec) (items : List PRec) :
    addAll e c (it :: items)
      = addAll e (RAGService.add_document e c it.content it.metadata).2 items := rfl

/-- Consistency of `syncAdded` with the loop: the store after the loop
and the trailing partial-batch flush equals the initial store with the
`syncAdded` documents folded in. -/
theorem syncLoop_store (e : Env) (bsize : Nat) (maxe : Option Nat)
    (lines : List Str) :
    ∀ s : MainApp.LoopState,
      (MainApp.flushItems e (MainApp.syncLoop e bsize maxe lines s).batch
         (MainApp.syncLoop e bsize maxe lines s)).store
      = addAll e s.store (MainApp.syncAdded bsize maxe lines s.batch s.imported) := by
  induction lines with
  | nil =>
    intro s
    rw [show MainApp.syncLoop e bsize maxe [] s = s from rfl,
        show MainApp.syncAdded bsize maxe [] s.batch s.imported = s.batch from rfl,
        flushItems_spec]
  | cons line rest ih =>
    intro s
    have ih2 : ∀ s' : MainApp.LoopState,
        addAll e (MainApp.syncLoop e bsize maxe rest s').store
            (MainApp.syncLoop e bsize maxe rest s').batch
          = addAll e s'.store
              (MainApp.syncAdded bsize maxe rest s'.batch s'.imported) := by
      intro s'
      have h := ih s'
      rw [flushItems_spec] at h
      simpa using h
    simp only [MainApp.syncLoop, MainApp.syncAdded]
    by_cases hg : MainApp.maxGuard maxe s.imported
    · simp [hg, flushItems_spec]
    · cases hp : MainApp.parse_log_line line with
      | some d =>
        by_cases hfl : bsize ≤ s.batch.length + 1
        · simp [hg, hp, hfl, flushItems_spec, ih2, addAll_append, addAll_cons,
            addAll_nil]
        · simp [hg, hp, hfl, flushItems_spec, ih2]
      | none =>
        by_cases hfl : bsize ≤ s.batch.length
        · simp [hg, hp, hfl, flushItems_spec, ih2, addAll_append, addAll_cons,
            addAll_nil]
        · simp [hg, hp, hfl, flushItems_spec, ih2]

/-- Folding documents in never removes an id. -/
theorem addAll_ids_mono (e : Env) {x : Str} (items : List PRec) :
    ∀ c : Collection, x ∈ c.ids → x ∈ (addAll e c items).ids := by
  induction items with
  | nil => intro c h; exact h
  | cons it t ih =>
    intro c h
    rw [addAll_cons]
    exact ih _ (mem_ids_add_of_mem _ _ _ h)

/-- After folding a list of documents in, the id of each of them is
present. -/
theorem addAll_mem_ids (e : Env) (items : List PRec) :
    ∀ (c : Collection) (p : PRec), p ∈ items →
      RAGService.doc_id e p.content p.metadata ∈ (addAll e c items).ids := by
  induction items with
  | nil => intro c p h; exact absurd h (List.not_mem_nil p)
  | cons it t ih =>
    intro c p h
    rw [addAll_cons]
    rcases List.mem_cons.mp h with h | h
    · subst h
      exact addAll_ids_mono e t _ (mem_ids_add _ _ _ _)
    · exact ih _ p h

/-- Folding in documents whose ids are all already present is a no-op. -/
theorem addAll_eq_of_mem (e : Env) (items : List PRec) :
    ∀ c : Collection,
      (∀ p ∈ items, RAGService.doc_id e p.content p.metadata ∈ c.ids) →
      addAll e c items = c := by
  induction items with
  | nil => intro c _; rfl
  | cons it t ih =>
    intro c h
    rw [addAll_cons]
    have hadd : (RAGService.add_document e c it.content it.metadata).2 = c :=
      add_eq_of_mem _ _ (h it (List.mem_cons_self it t))
    rw [hadd]
    exact ih c (fun p hp => h p (List.mem_cons_of_mem it hp))

/-- The store produced by a `force_full` sync run is the initial store
with the deterministic document list folded in. -/
theorem sync_logs_store (e : Env) (c : Collection) (st : MainApp.SyncFileState)
    (lines : List Str) (bsize : Nat) (maxe : Option Nat) (now : Str) :
    (MainApp.sync_logs e c st lines bsize maxe true now).store
      = addAll e c (MainApp.syncAdded bsize maxe (lines.drop 0) [] 0) := by
  unfold MainApp.sync_logs
  exact syncLoop_store e bsize maxe (lines.drop 0)
    { store := c, batch := [], imported := 0, skipped := 0, processed := 0,
      current_line := 0 }

/-- C5.  Ingestion is idempotent: the document id is a deterministic
hash of content and timestamp, so re-running `/sync-logs` with
`force_full` over the same log file computes the same document ids, adds
nothing new, and leaves the store — hence the document count — exactly
as after the first run. -/
theorem claim_ingest_idempotent (e : Env) (c0 : Collection)
    (st0 : MainApp.SyncFileState) (lines : List Str) (bsize : Nat)
    (maxe : Option Nat) (n1 n2 : Str) :
    (MainApp.sync_logs e (MainApp.sync_logs e c0 st0 lines bsize maxe true n1).store
        (MainApp.sync_logs e c0 st0 lines bsize maxe true n1).state
        lines bsize maxe true n2).store
      = (MainApp.sync_logs e c0 st0 lines bsize maxe true n1).store ∧
    (MainApp.sync_logs e (MainApp.sync_logs e c0 st0 lines bsize maxe true n1).store
        (MainApp.sync_logs e c0 st0 lines bsize maxe true n1).state
        lines bsize maxe true n2).store.ids
      = (MainApp.sync_logs e c0 st0 lines bsize maxe true n1).store.ids ∧
    (MainApp.sync_logs e (MainApp.sync_logs e c0 st0 lines bsize maxe true n1).store
        (MainApp.sync_logs e c0 st0 lines bsize maxe true n1).state
        lines bsize maxe true n2).store.count
      = (MainApp.sync_logs e c0 st0 lines bsize maxe true n1).store.count := by
  have h1 := sync_logs_store e c0 st0 lines bsize maxe n1
  have h2 := sync_logs_store e
    (MainApp.sync_logs e c0 st0 lines bsize maxe true n1).store
    (MainApp.sync_logs e c0 st0 lines bsize maxe true n1).state
    lines bsize maxe n2
  have hmem : ∀ p ∈ MainApp.syncAdded bsize maxe (lines.drop 0) [] 0,
      RAGService.doc_id e p.content p.metadata
        ∈ (MainApp.sync_logs e c0 st0 lines bsize maxe true n1).store.ids := by
    intro p hp
    rw [h1]
    exact addAll_mem_ids e _ c0 p hp
  have heq : (MainApp.sync_logs e
      (MainApp.sync_logs e c0 st0 lines bsize maxe true n1).store
      (MainApp.sync_logs e c0 st0 lines bsize maxe true n1).state
      lines bsize maxe true n2).store
      = (MainApp.sync_logs e c0 st0 lines bsize maxe true n1).store := by
    rw [h2]
    exact addAll_eq_of_mem e _ _ hmem
  exact ⟨heq, by rw [heq], by rw [heq]⟩
